import Mathlib

/-!
Verification of the session/credential core of the blog-api service.

The Go sources are shallowly embedded: pure helpers become Lean functions,
the PostgreSQL store becomes an explicit `Db` value threaded through the
handlers, and Go's `(value, error)` returns become `Except`/pairs.  External
libraries (golang-jwt, argon2id, AES-GCM, casbin) are modelled symbolically
but executably, keeping exactly the structure the handlers rely on.
Machine integers are modelled as `Int`/`Nat`; none of the verified code
depends on overflow behaviour.
-/

namespace BlogApi

/-! ## Token codec (server/jwt.go together with the golang-jwt/v4 library)

golang-jwt's `ParseWithClaims` checks the signature using the algorithm
declared in the token header (the key callback in jwt.go returns the
process signing key without inspecting the method), then validates the
registered claims (expiry).  HMAC is modelled as an ideal MAC: a signature
is the triple of algorithm, key and signed claims, so a signature verifies
exactly when it was produced with the same algorithm, key and claims. -/

/-- HMAC variants the JWT library accepts for a byte-slice key. -/
inductive Alg
  | HS256
  | HS384
  | HS512
deriving DecidableEq, Repr

/-- Registered claim set used by jwt.go (`jwt.RegisteredClaims`): expiry and
issued-at, as Unix seconds. -/
structure RegisteredClaims where
  expiresAt : Int
  issuedAt : Int
deriving DecidableEq, Repr

/-- Claims structure `tokenClaims` from server/jwt.go: a numeric subject id, a
type discriminator and the registered claims. -/
structure TokenClaims where
  id : Int
  type : String
  registered : RegisteredClaims
deriving DecidableEq, Repr

/-- Ideal-MAC model of an HMAC signature: the signature produced with
algorithm `alg`, key `key` over claims `claims` is the triple itself, so
verification succeeds exactly for the algorithm/key/claims it was made
with. -/
structure Mac where
  alg : Alg
  key : String
  claims : TokenClaims
deriving DecidableEq, Repr

/-- Signing: model of `token.SignedString(key)` for the method `alg`. -/
def hmacSign (alg : Alg) (key : String) (claims : TokenClaims) : Mac :=
  ⟨alg, key, claims⟩

/-- A serialized JWT: header (declared algorithm), payload (claims) and
signature.  Distinct `SignedToken` values correspond to distinct compact
serializations. -/
structure SignedToken where
  alg : Alg
  claims : TokenClaims
  sig : Mac
deriving DecidableEq, Repr

/-- Constant `RefreshTokenType` from server/jwt.go. -/
def RefreshTokenType : String := "REFRESH"

/-- Constant `AccessTokenExpiry` (minutes) from server/jwt.go. -/
def AccessTokenExpiry : Int := 15

/-- Constant `RefreshTokenExpiry` (hours, two years) from server/jwt.go. -/
def RefreshTokenExpiry : Int := 17532

/-- Signature check performed by the library: the key callback returns the
process signing key, and the signature is verified under the algorithm
declared in the token header. -/
def tokenSignatureValid (key : String) (t : SignedToken) : Bool :=
  t.sig == hmacSign t.alg key t.claims

/-- Registered-claims validation of jwt/v4: the token is valid while the
current time is strictly before the expiry. -/
def claimsValid (now : Int) (c : TokenClaims) : Bool :=
  now < c.registered.expiresAt

/-- Failure cases of token validation. -/
inductive JwtError
  | badSignature
  | expired
  | notRefreshToken
deriving DecidableEq, Repr

/-- `generateAccessToken` from server/jwt.go: claims carry the subject id, no
type marker, expiry fifteen minutes from now; signed with HS256. -/
def generateAccessToken (key : String) (now : Int) (id : Int) : SignedToken :=
  let c : TokenClaims := ⟨id, "", ⟨now + AccessTokenExpiry * 60, now⟩⟩
  ⟨Alg.HS256, c, hmacSign Alg.HS256 key c⟩

/-- `generateRefreshToken` from server/jwt.go: claims carry the subject id,
the `REFRESH` type marker, expiry two years from now; signed with HS256. -/
def generateRefreshToken (key : String) (now : Int) (id : Int) : SignedToken :=
  let c : TokenClaims := ⟨id, RefreshTokenType, ⟨now + RefreshTokenExpiry * 3600, now⟩⟩
  ⟨Alg.HS256, c, hmacSign Alg.HS256 key c⟩

/-- `parseToken` from server/jwt.go: reads the claims out of the token and
ignores the validation error entirely (the parse result is used only to learn
the claimed subject). -/
def parseToken (t : SignedToken) : TokenClaims :=
  t.claims

/-- `validateAccessToken` from server/jwt.go: parse with the process key,
fail unless `token.Valid`, i.e. unless the signature verifies under the
declared algorithm and the claims are unexpired.  The key callback does not
restrict the declared signing method. -/
def validateAccessToken (key : String) (now : Int) (t : SignedToken) :
    Except JwtError TokenClaims :=
  if ¬ tokenSignatureValid key t then .error .badSignature
  else if ¬ claimsValid now t.claims then .error .expired
  else .ok t.claims

/-- `validateRefreshToken` from server/jwt.go: same validation as
`validateAccessToken`, then additionally fail unless the `Type` claim equals
the refresh marker. -/
def validateRefreshToken (key : String) (now : Int) (t : SignedToken) :
    Except JwtError TokenClaims :=
  if ¬ tokenSignatureValid key t then .error .badSignature
  else if ¬ claimsValid now t.claims then .error .expired
  else if t.claims.type ≠ RefreshTokenType then .error .notRefreshToken
  else .ok t.claims

/-! ## Input validator (pkg/validator) -/

/-- `Validator.RequiredMax`: error when the value is longer than `mx`.
Go measures `len` in bytes; lengths are modelled as character counts, which
agrees on the inputs the claims are about. -/
def requiredMaxErrors (key value : String) (mx : Nat) : List String :=
  if value.length > mx then
    [key ++ " cannot be longer than " ++ toString mx ++ " characters"]
  else []

/-- `Validator.RequiredMin`: error when the value is shorter than `mn`. -/
def requiredMinErrors (key value : String) (mn : Nat) : List String :=
  if value.length < mn then
    [key ++ " must be at least " ++ toString mn ++ " characters long"]
  else []

/-- `Validator.RequiredRange`: `RequiredMax` followed by `RequiredMin`. -/
def requiredRangeErrors (key value : String) (mn mx : Nat) : List String :=
  requiredMaxErrors key value mx ++ requiredMinErrors key value mn

/-- `Validator.RequiredExact`: error unless the value has length exactly `n`. -/
def requiredExactErrors (key value : String) (n : Nat) : List String :=
  if value.length ≠ n then
    [key ++ " must be exactly " ++ toString n ++ " characters long"]
  else []

/-! ## Credential hasher and email parser (external collaborators)

argon2id is modelled as an injective digest: `CreateHash` tags the password
and `ComparePasswordAndHash` checks that the password reproduces the stored
hash.  This keeps the property the handlers use — a stored hash matches
exactly the password it was created from. -/

/-- Model of `argon2id.CreateHash` with the fixed cost parameters. -/
def argonCreateHash (password : String) : String :=
  "argon2id$" ++ password

/-- Model of `argon2id.ComparePasswordAndHash`. -/
def comparePasswordAndHash (password hash : String) : Bool :=
  argonCreateHash password == hash

/-- Model of `mail.ParseAddress`: accepts a string with exactly one `@` that
is neither the first nor the last character. -/
def mailParseAddressOk (s : String) : Bool :=
  s.toList.count '@' == 1 && s.toList.head? != some '@' && s.toList.getLast? != some '@'

/-- Whitespace recognised by `strings.TrimSpace` on ASCII input. -/
def isSpaceChar (c : Char) : Bool :=
  c == ' ' || c == '\t' || c == '\n' || c == '\r'

/-- Model of Go's `strings.TrimSpace`: strip leading and trailing
whitespace. -/
def trimSpace (s : String) : String :=
  String.mk (((s.toList.dropWhile isSpaceChar).reverse.dropWhile isSpaceChar).reverse)

/-! ## Secret cipher (server/helpers.go `encryptMfaSecret`/`decryptMfaSecret`
with crypto/cipher AES-GCM)

GCM is modelled with its interface structure: `Seal` appends a 16-byte
authentication tag to the plaintext, `Open` re-derives and checks the tag.
The tag is an executable digest of key, nonce and body.  `NonceSize` is 12,
the standard GCM nonce size.  Go slice expressions
`b[:n]` panic when `n > len(b)`; `GoOutcome.panicked` records that. -/

/-- Outcome of running a Go function that may return an error or panic. -/
inductive GoOutcome (α : Type)
  | ok (a : α)
  | errored
  | panicked
deriving DecidableEq, Repr

/-- GCM nonce size (bytes). -/
def gcmNonceSize : Nat := 12

/-- GCM authentication tag size (bytes). -/
def gcmTagSize : Nat := 16

/-- Digest used by the model tag: a byte folded from key, nonce and body. -/
def tagByte (key : String) (nonce body : List Nat) (i : Nat) : Nat :=
  (key.toList.foldl (fun a c => a + c.toNat) 0 +
    nonce.foldl (fun a b => 31 * a + b) 7 +
    body.foldl (fun a b => 37 * a + b) 11 + i) % 256

/-- Model authentication tag over key, nonce and body. -/
def gcmTag (key : String) (nonce body : List Nat) : List Nat :=
  (List.range gcmTagSize).map (tagByte key nonce body)

/-- Model of `gcm.Seal(nil, nonce, plaintext, nil)`: ciphertext body followed
by the authentication tag. -/
def gcmSeal (key : String) (nonce pt : List Nat) : List Nat :=
  pt ++ gcmTag key nonce pt

/-- Model of `gcm.Open(nil, nonce, ciphertext, nil)`: split off the trailing
tag, recompute it, and fail unless it matches. -/
def gcmOpen (key : String) (nonce ct : List Nat) : Except Unit (List Nat) :=
  if ct.length < gcmTagSize then .error ()
  else
    let body := ct.take (ct.length - gcmTagSize)
    let tag := ct.drop (ct.length - gcmTagSize)
    if tag = gcmTag key nonce body then .ok body else .error ()

/-- `encryptMfaSecret` from server/helpers.go: an all-zero nonce of
`NonceSize` bytes is allocated, and `gcm.Seal(nonce, nonce, secret, nil)`
appends the sealed secret to the nonce, so the stored blob is
nonce ‖ ciphertext. -/
def encryptMfaSecret (key : String) (secret : List Nat) : List Nat :=
  let nonce := List.replicate gcmNonceSize 0
  nonce ++ gcmSeal key nonce secret

/-- `decryptMfaSecret` from server/helpers.go:
`nonce, cipherText := encryptedSecret[:nonceSize], encryptedSecret[nonceSize:]`
followed by `gcm.Open`.  When the blob is shorter than the nonce size the
slice expression `encryptedSecret[:nonceSize]` panics (slice bounds out of
range), which the model records as `panicked`. -/
def decryptMfaSecret (key : String) (blob : List Nat) : GoOutcome (List Nat) :=
  if blob.length < gcmNonceSize then .panicked
  else
    match gcmOpen key (blob.take gcmNonceSize) (blob.drop gcmNonceSize) with
    | .ok pt => .ok pt
    | .error _ => .errored

/-! ## Recovery codes (server/helpers.go) -/

/-- Constant `RecoveryCodesAmount` from server/helpers.go. -/
def RecoveryCodesAmount : Nat := 16

/-- Constant `RecoveryCodeLength` from server/helpers.go. -/
def RecoveryCodeLength : Nat := 7

/-- The charset used by `randomString`. -/
def recoveryCharset : List Char := "abcdefghijklmnopqrstuvwxyz".toList

/-- `randomString` from server/helpers.go: seven characters drawn from the
charset.  The global `rand` source is modelled as a stream `g` of draws, read
at offsets `off`, `off+1`, …. -/
def randomString (g : Nat → Nat) (off : Nat) : String :=
  String.mk ((List.range RecoveryCodeLength).map
    (fun i => recoveryCharset.getD (g (off + i) % recoveryCharset.length) 'a'))

/-- Loop of `generateRecoveryCodes`:
`for i := 0; i <= RecoveryCodesAmount; i++ { codes = append(codes, randomString()) }`.
The guard `i ≤ RecoveryCodesAmount` is the loop condition; the structural
`fuel` argument only bounds the recursion depth and is chosen large enough
below that the loop always exits through its own guard.  Each iteration
consumes `RecoveryCodeLength` draws from the stream. -/
def generateRecoveryCodesLoop (g : Nat → Nat) : Nat → Nat → List String
  | _, 0 => []
  | i, fuel + 1 =>
    if i ≤ RecoveryCodesAmount then
      randomString g (i * RecoveryCodeLength) :: generateRecoveryCodesLoop g (i + 1) fuel
    else []

/-- `generateRecoveryCodes` from server/helpers.go. -/
def generateRecoveryCodes (g : Nat → Nat) : List String :=
  generateRecoveryCodesLoop g 0 (RecoveryCodesAmount + 2)

/-- `removeRecoveryCode` from server/helpers.go: removes the first element
equal to `r`, keeps the rest. -/
def removeRecoveryCode : List String → String → List String
  | [], _ => []
  | v :: rest, r => if v == r then rest else v :: removeRecoveryCode rest r

/-- `isRecoveryCodeValid` from server/helpers.go: linear membership scan. -/
def isRecoveryCodeValid (recoveryCode : String) (codes : List String) : Bool :=
  codes.any (fun code => recoveryCode == code)

/-! ## Permission engine (server/helpers.go `enforcePermissions` and casbin) -/

/-- Model of a casbin enforcer: `Enforce` evaluates a (role, object, action)
triple against the static policy, or fails with an evaluation error. -/
structure Enforcer where
  enforce : String → String → String → Except Unit Bool

/-- `enforcePermissions` from server/helpers.go: regardless of the `object`
and `action` arguments, the policy is evaluated for `(role, "user",
"delete")`; an evaluation error yields `false` (after writing an internal
error response). -/
def enforcePermissions (e : Enforcer) (role object action : String) : Bool :=
  match e.enforce role "user" "delete" with
  | .error _ => false
  | .ok ok => ok

/-- Permission gate of `deletePostHandler` (server posts handlers): invoked
as `enforcePermissions(c, user.Role, "post", "delete")` when the post belongs
to another user. -/
def deletePostPermissionGate (e : Enforcer) (role : String) : Bool :=
  enforcePermissions e role "post" "delete"

/-- Permission gate of `editPostHandler`: invoked as
`enforcePermissions(c, user.Role, "post", "write")` when the post belongs to
another user. -/
def editPostPermissionGate (e : Enforcer) (role : String) : Bool :=
  enforcePermissions e role "post" "write"

/-! ## Data model and repository (pkg/repository, migrations)

The PostgreSQL store is embedded as an explicit `Db` value.  Users carry the
columns of the `user` table; `db.Get` on a SELECT is modelled as the first
matching row; UPDATE/DELETE statements map/filter the row lists.  Repository
errors follow `handleError` in pkg/repository/postgres.go: a missing row
(`sql.ErrNoRows`) becomes `ErrNotFound`, a unique-constraint violation
becomes the conflict error, anything else is passed through (modelled by
`RepoError.storage`). -/

/-- Decidable equality for `Except`, used to evaluate the embedded
repository calls on concrete inputs. -/
instance instExceptDecidableEq {e a : Type} [DecidableEq e] [DecidableEq a] :
    DecidableEq (Except e a) := fun x y =>
  match x, y with
  | .ok v, .ok w =>
      if h : v = w then isTrue (by rw [h]) else isFalse (by intro hc; cases hc; exact h rfl)
  | .error v, .error w =>
      if h : v = w then isTrue (by rw [h]) else isFalse (by intro hc; cases hc; exact h rfl)
  | .ok _, .error _ => isFalse (fun hc => Except.noConfusion hc)
  | .error _, .ok _ => isFalse (fun hc => Except.noConfusion hc)

/-- Repository error taxonomy.  `userAlreadyExists` is the conflict error the
server's error handler matches on; `notFound` is `ErrNotFound` produced by
`handleError` from `sql.ErrNoRows`; `storage` stands for any other database
failure. -/
inductive RepoError
  | notFound
  | userAlreadyExists
  | storage
deriving DecidableEq, Repr

/-- Row of the `user` table (migration 000001): id, unique username, unique
email, password hash, optional MFA secret blob (empty list = NULL, 2FA
disabled), role name, recovery-code array, active flag. -/
structure User where
  id : Int
  username : String
  email : String
  password : String
  mfaSecret : List Nat
  role : String
  recovery : List String
  active : Bool
deriving DecidableEq, Repr

/-- Row of the `password_reset_token` table (migration: user_id, token,
expiry as Unix seconds). -/
structure PasswordResetToken where
  userId : Int
  token : String
  expiry : Int
deriving DecidableEq, Repr

/-- The database: `user` rows, `token_blacklist` rows (user id and the raw
refresh-token string, identified with its parsed form), password-reset
rows, and the next serial id. -/
structure Db where
  users : List User
  blacklist : List (Int × SignedToken)
  resetTokens : List PasswordResetToken
  nextId : Int
deriving DecidableEq, Repr

/-- `FindUserByUsername` (pkg/repository/user.go): `db.Get` of the first
`user` row with the given username, `ErrNotFound` when there is none.  (The
SQL projects a subset of the columns; the handlers below only read projected
fields of the result.) -/
def FindUserByUsername (db : Db) (username : String) : Except RepoError User :=
  match db.users.find? (fun u => u.username == username) with
  | some u => .ok u
  | none => .error .notFound

/-- `GetUserRecoveryCodes` (pkg/repository/user.go): SELECT of the `recovery`
array for the given username. -/
def GetUserRecoveryCodes (db : Db) (username : String) : Except RepoError (List String) :=
  match db.users.find? (fun u => u.username == username) with
  | some u => .ok u.recovery
  | none => .error .notFound

/-- `SetRecoveryCodes` (pkg/repository/user.go): UPDATE of the `recovery`
array for the rows with the given id. -/
def SetRecoveryCodes (db : Db) (userId : Int) (codes : List String) : Db :=
  { db with
      users := db.users.map fun u =>
        if u.id == userId then { u with recovery := codes } else u }

/-- `SetActiveState` (pkg/repository/user.go): UPDATE of the `active` flag
for the rows with the given id. -/
def SetActiveState (db : Db) (userId : Int) (active : Bool) : Db :=
  { db with
      users := db.users.map fun u =>
        if u.id == userId then { u with active := active } else u }

/-- Modelled from the spec: `SetPassword` (referenced by
`resetUserPasswordHandler`, not under src/) persists the new password hash to
the owning user: UPDATE of the `password` column for the rows with the given
id. -/
def SetPassword (db : Db) (userId : Int) (hash : String) : Db :=
  { db with
      users := db.users.map fun u =>
        if u.id == userId then { u with password := hash } else u }

/-- `IsRefreshTokenBlacklisted` (pkg/repository/token.go): `db.Get` of the
`token_blacklist` row for this user id and token string.  A found row yields
`(true, nil)`; a missing row yields `sql.ErrNoRows`, which `r.handleError`
maps to `ErrNotFound`, so the call returns `(false, ErrNotFound)`. -/
def IsRefreshTokenBlacklisted (db : Db) (userId : Int) (token : SignedToken) :
    Bool × Option RepoError :=
  if (userId, token) ∈ db.blacklist then (true, none)
  else (false, some .notFound)

/-- `InsertRefreshToken` (pkg/repository/token.go): INSERT of the consumed
refresh token into `token_blacklist`; `handleError` passes a successful
(nil-error) execution through. -/
def InsertRefreshToken (db : Db) (userId : Int) (token : SignedToken) : Db :=
  { db with blacklist := db.blacklist ++ [(userId, token)] }

/-- `InsertUser` (pkg/repository/user.go): INSERT of a `user` row with the
normal role and the default active state, RETURNING the new id.  The
`username` and `email` columns are UNIQUE (migration 000001), so inserting a
duplicate fails with a unique-constraint violation.  Modelled from the spec:
the mapping of that violation to the conflict error
`repository.ErrUserAlreadyExists` matched by the server's error handler is
not under src/; per the spec, the insert "fails with AlreadyExists on
unique-constraint conflict — this must be distinguished from other storage
errors".  `fault` injects any other storage failure. -/
def InsertUser (db : Db) (u : User) (fault : Bool) : Except RepoError (Int × Db) :=
  if db.users.any (fun w => w.username == u.username || w.email == u.email) then
    .error .userAlreadyExists
  else if fault then .error .storage
  else
    .ok (db.nextId,
      { db with users := db.users ++ [{ u with id := db.nextId, active := true }],
                nextId := db.nextId + 1 })

/-- `GetPasswordResetToken` (pkg/repository): `db.Get` of the first
`password_reset_token` row with the given token string, `ErrNotFound`
(via `handleError`) when there is none. -/
def GetPasswordResetToken (db : Db) (token : String) : Except RepoError PasswordResetToken :=
  match db.resetTokens.find? (fun r => r.token == token) with
  | some r => .ok r
  | none => .error .notFound

/-- `DeletePasswordResetToken` (pkg/repository): DELETE of the rows with the
given token string. -/
def DeletePasswordResetToken (db : Db) (token : String) : Db :=
  { db with resetTokens := db.resetTokens.filter (fun r => !(r.token == token)) }

/-- `DeleteAllPasswordResetTokensForUser` (pkg/repository): DELETE of every
reset-token row owned by the given user. -/
def DeleteAllPasswordResetTokensForUser (db : Db) (userId : Int) : Db :=
  { db with resetTokens := db.resetTokens.filter (fun r => !(r.userId == userId)) }

/-! ## HTTP responses and the error-handler middleware -/

/-- Pair of freshly issued tokens, as returned by the handlers. -/
structure TokenPair where
  access : SignedToken
  refresh : SignedToken
deriving DecidableEq, Repr

/-- Response bodies the modelled handlers produce. -/
inductive RespBody
  | empty
  | errMsg (msg : String)
  | errList (msgs : List String)
  | message (msg : String)
  | tokens (pair : TokenPair)
deriving DecidableEq, Repr

/-- An HTTP response: status code and body. -/
structure Response where
  status : Nat
  body : RespBody
deriving DecidableEq, Repr

/-- The token pair carried by a response, if any. -/
def Response.tokensOf (r : Response) : Option TokenPair :=
  match r.body with
  | .tokens p => some p
  | _ => none

/-- `badRequestResponse` (server/responses.go). -/
def badRequestResponse (msg : String) : Response :=
  ⟨400, .errMsg msg⟩

/-- `internalServerErrorResponse` (server/responses.go). -/
def internalServerErrorResponse : Response :=
  ⟨500, .errMsg "internal server error"⟩

/-- `successResponse` (server/responses.go). -/
def successResponse (msg : String) : Response :=
  ⟨200, .message msg⟩

/-- Response with status 200 and a fresh token pair. -/
def okTokens (access refresh : SignedToken) : Response :=
  ⟨200, .tokens ⟨access, refresh⟩⟩

/-- Errors recorded with `c.Error` and mapped by the error-handler
middleware. -/
inductive AppError
  | repo (e : RepoError)
  | invalidJSON
  | invalidInput (msg : String)
deriving DecidableEq, Repr

/-- `errorHandler` middleware (server): maps
`repository.ErrUserAlreadyExists` to 409 Conflict with the "already exists"
body, `ErrInvalidJSON` and `ErrInvalidInput` to 400, and every other
recorded error to a generic internal error. -/
def errorHandler : AppError → Response
  | .repo .userAlreadyExists =>
      ⟨409, .errMsg "a user with this username or email already exists"⟩
  | .invalidJSON => ⟨400, .errMsg "invalid json"⟩
  | .invalidInput msg => ⟨400, .errMsg msg⟩
  | .repo _ => internalServerErrorResponse

/-! ## Session-core handlers (server users.go) -/

/-- The Authorization header of a request. -/
inductive AuthHeader
  | missing
  | malformed
  | bearer (token : SignedToken)
deriving DecidableEq, Repr

/-- Modelled from the spec: `validateAuthorizationHeader` (referenced by
`refreshTokenHandler`, not under src/) extracts the bearer token from the
Authorization header; a missing or malformed header is an error
(spec §4.6 step 1, and the identical inline logic of the auth middleware:
the header must be two space-separated words starting with `Bearer`). -/
def validateAuthorizationHeader : AuthHeader → Except String SignedToken
  | .bearer t => .ok t
  | .missing => .error "did not receive Authorization header"
  | .malformed => .error "wrong Authorization header format"

/-- Body of POST /users/register. -/
structure RegisterRequest where
  username : String
  email : String
  password : String
deriving DecidableEq, Repr

/-- `registerUserHandler` (server users.go): trim username and email, check
username length 3–50 and password length ≥ 8, parse the email address, hash
the password, insert the user (errors recorded with `c.Error` and mapped by
the error-handler middleware), and issue an access+refresh pair.  `fault`
injects a non-conflict storage failure of the insert. -/
def registerUserHandler (key : String) (now : Int) (db : Db)
    (req : RegisterRequest) (fault : Bool) : Response × Db :=
  let username := trimSpace req.username
  let email := trimSpace req.email
  let errs := requiredRangeErrors "username" username 3 50 ++
    requiredMinErrors "password" req.password 8
  if errs ≠ [] then (⟨400, .errList errs⟩, db)
  else if ¬ mailParseAddressOk email then (badRequestResponse "email is invalid", db)
  else
    let hash := argonCreateHash req.password
    let newUser : User :=
      ⟨0, username, email, hash, [], "", [], true⟩
    match InsertUser db newUser fault with
    | .error e => (errorHandler (.repo e), db)
    | .ok (id, db1) =>
        (okTokens (generateAccessToken key now id) (generateRefreshToken key now id), db1)

/-- Body of POST /users/login/recovery. -/
structure RecoveryLoginRequest where
  username : String
  password : String
  recoveryCode : String
deriving DecidableEq, Repr

/-- `loginUserRecoveryHandler` (server users.go): trim the username and check
it is at most 50 characters; look the user up (any error folds into the
generic credentials message); verify the password hash; load the stored
recovery codes; an empty set and a non-member code are both answered with
the same "incorrect recovery code" response; on a match, remove the code,
persist the reduced set, and issue an access+refresh pair. -/
def loginUserRecoveryHandler (key : String) (now : Int) (db : Db)
    (req : RecoveryLoginRequest) : Response × Db :=
  let username := trimSpace req.username
  let errs := requiredMaxErrors "username" username 50
  if errs ≠ [] then (⟨400, .errList errs⟩, db)
  else
    match FindUserByUsername db username with
    | .error _ => (badRequestResponse "incorrect username or password", db)
    | .ok user =>
      if ¬ comparePasswordAndHash req.password user.password then
        (badRequestResponse "incorrect username or password", db)
      else
        match GetUserRecoveryCodes db user.username with
        | .error _ => (internalServerErrorResponse, db)
        | .ok recoveryCodes =>
          if recoveryCodes.length == 0 then
            (badRequestResponse "incorrect recovery code", db)
          else if ¬ isRecoveryCodeValid req.recoveryCode recoveryCodes then
            (badRequestResponse "incorrect recovery code", db)
          else
            let recoveryCodesUpdated := removeRecoveryCode recoveryCodes req.recoveryCode
            let db1 := SetRecoveryCodes db user.id recoveryCodesUpdated
            (okTokens (generateAccessToken key now user.id)
              (generateRefreshToken key now user.id), db1)

/-- Body of POST /users/token/refresh (`refresh_token` field); `none` models
a request whose JSON fails to bind. -/
structure RefreshRequest where
  refreshToken : SignedToken
deriving DecidableEq, Repr

/-- `refreshTokenHandler` (server users.go): extract the bearer access token
from the Authorization header (malformed ⇒ 403); `parseToken` it — without
validation — to learn the claimed subject; bind the JSON body; fully
validate the presented refresh token (signature, expiry, type marker; any
failure ⇒ 403); require the two subjects to agree (mismatch ⇒ 403 "wrong
user"); consult the blacklist — an error from the lookup ⇒ 500, a
blacklisted token ⇒ deactivate the account and answer a bare 403; otherwise
issue a new pair, insert the consumed token into the blacklist (failure ⇒
500 without the pair — unreachable in the pure store model) and return the
pair. -/
def refreshTokenHandler (key : String) (now : Int) (db : Db)
    (hdr : AuthHeader) (body : Option RefreshRequest) : Response × Db :=
  match validateAuthorizationHeader hdr with
  | .error e => (⟨403, .errMsg e⟩, db)
  | .ok authToken =>
    let accessToken := parseToken authToken
    match body with
    | none => (errorHandler .invalidJSON, db)
    | some request =>
      match validateRefreshToken key now request.refreshToken with
      | .error _ => (⟨403, .errMsg "invalid refresh token"⟩, db)
      | .ok refreshClaims =>
        let userId := accessToken.id
        if userId ≠ refreshClaims.id then
          (⟨403, .errMsg "refresh token used for the wrong user"⟩, db)
        else
          let lookup := IsRefreshTokenBlacklisted db userId request.refreshToken
          match lookup.2 with
          | some _ => (internalServerErrorResponse, db)
          | none =>
            if lookup.1 then
              let db1 := SetActiveState db userId false
              (⟨403, .empty⟩, db1)
            else
              let newAccessToken := generateAccessToken key now userId
              let newRefreshToken := generateRefreshToken key now userId
              let db1 := InsertRefreshToken db userId request.refreshToken
              (okTokens newAccessToken newRefreshToken, db1)

/-- `resetUserPasswordHandler` (server users.go): check the reset token has
the configured exact length and the new password at least 8 characters; look
the token row up (any error ⇒ 403 "wrong reset password token"); if its
expiry is strictly before now, answer 403 "this token has expired" and
delete that token; otherwise hash the new password, persist it to the owning
user, delete all outstanding reset tokens for that user, and report success.
`tokLen` stands for the constant `PasswordResetTokenLength`, whose defining
source is not under src/; the flow does not depend on its value. -/
def resetUserPasswordHandler (now : Int) (tokLen : Nat) (db : Db)
    (token : String) (password : String) : Response × Db :=
  let errs := requiredExactErrors "token" token tokLen ++
    requiredMinErrors "password" password 8
  if errs ≠ [] then (⟨400, .errList errs⟩, db)
  else
    match GetPasswordResetToken db token with
    | .error _ => (⟨403, .errMsg "wrong reset password token"⟩, db)
    | .ok passwordResetToken =>
      if passwordResetToken.expiry < now then
        (⟨403, .errMsg "this token has expired"⟩, DeletePasswordResetToken db token)
      else
        let hash := argonCreateHash password
        let db1 := SetPassword db passwordResetToken.userId hash
        let db2 := DeleteAllPasswordResetTokensForUser db1 passwordResetToken.userId
        (successResponse "password has been changed successfully", db2)

/-! ## Concrete fixtures used by witness theorems -/

/-- Signing key used by concrete evaluations. -/
def wKey : String := "k"

/-- A registered user with two recovery codes. -/
def wUser : User :=
  ⟨1, "alice", "alice@example.com", argonCreateHash "password123", [], "user",
    ["abc", "xyz"], true⟩

/-- Access token issued to `wUser` at time 0. -/
def wAccess : SignedToken := generateAccessToken wKey 0 1

/-- Access token issued to a different user (id 2) at time 0. -/
def wAccessOther : SignedToken := generateAccessToken wKey 0 2

/-- Refresh token issued to `wUser` at time 0. -/
def wRefresh : SignedToken := generateRefreshToken wKey 0 1

/-- Claims carried by `wRefresh`. -/
def wRefreshClaims : TokenClaims := ⟨1, "REFRESH", ⟨63115200, 0⟩⟩

/-- Store with `wUser` and an empty blacklist. -/
def wDb : Db := ⟨[wUser], [], [], 2⟩

/-- Store with `wUser` and `wRefresh` already consumed (blacklisted). -/
def wDbBlacklisted : Db := ⟨[wUser], [(1, wRefresh)], [], 2⟩

/-- Store with three outstanding reset tokens: two for alice (user 1), one
for user 2. -/
def wDbReset : Db :=
  ⟨[wUser], [], [⟨1, "tok1tok1", 100⟩, ⟨1, "tok2tok2", 500⟩, ⟨2, "tok3tok3", 500⟩], 2⟩

/-! ## Supporting lemmas -/

theorem randomString_length (g : Nat → Nat) (off : Nat) :
    (randomString g off).length = RecoveryCodeLength := by
  simp [randomString, String.length]

theorem generateRecoveryCodesLoop_length (g : Nat → Nat) (i fuel : Nat)
    (hfuel : RecoveryCodesAmount + 1 ≤ i + fuel) :
    (generateRecoveryCodesLoop g i fuel).length = RecoveryCodesAmount + 1 - i := by
  induction fuel generalizing i with
  | zero =>
    simp only [generateRecoveryCodesLoop, List.length_nil]
    omega
  | succ fuel ih =>
    rw [generateRecoveryCodesLoop]
    split
    next h => rw [List.length_cons, ih (i + 1) (by omega)]; omega
    next h => simp only [List.length_nil]; omega

theorem generateRecoveryCodesLoop_all_length (g : Nat → Nat) (i fuel : Nat) :
    ∀ s ∈ generateRecoveryCodesLoop g i fuel, s.length = RecoveryCodeLength := by
  induction fuel generalizing i with
  | zero => simp [generateRecoveryCodesLoop]
  | succ fuel ih =>
    intro s hs
    rw [generateRecoveryCodesLoop] at hs
    split at hs
    · rcases List.mem_cons.mp hs with h | h
      · subst h; exact randomString_length g _
      · exact ih (i + 1) s h
    · simp at hs

theorem gcmTag_length (key : String) (nonce body : List Nat) :
    (gcmTag key nonce body).length = gcmTagSize := by
  simp [gcmTag]

theorem decryptMfaSecret_encryptMfaSecret (key : String) (pt : List Nat) :
    decryptMfaSecret key (encryptMfaSecret key pt) = GoOutcome.ok pt := by
  have hnl : (List.replicate gcmNonceSize (0 : Nat)).length = gcmNonceSize :=
    List.length_replicate gcmNonceSize 0
  have htl : (gcmTag key (List.replicate gcmNonceSize 0) pt).length = gcmTagSize :=
    gcmTag_length key _ pt
  rw [decryptMfaSecret, encryptMfaSecret, gcmSeal]
  rw [if_neg (by simp [hnl])]
  rw [List.take_left' hnl, List.drop_left' hnl]
  rw [gcmOpen]
  have hctl : (pt ++ gcmTag key (List.replicate gcmNonceSize 0) pt).length =
      pt.length + gcmTagSize := by rw [List.length_append, htl]
  rw [if_neg (by rw [hctl]; omega)]
  have hpl : pt.length = (pt ++ gcmTag key (List.replicate gcmNonceSize 0) pt).length - gcmTagSize := by
    rw [hctl]; omega
  rw [List.take_left' hpl, List.drop_left' hpl]
  rw [if_pos rfl]

/-! ## Claim C10 -/

/-- Claim C10: `enforcePermissions` ignores its `object` and `action`
arguments — for every role and every pair (object, action) it returns the
same result as for ("user", "delete"), and in particular the gates invoked
by `deletePostHandler` with ("post", "delete") and by `editPostHandler` with
("post", "write") coincide with the ("user", "delete") evaluation of the
policy. -/
theorem claim10_enforcePermissions_ignores_object_action
    (e : Enforcer) (role object action : String) :
    enforcePermissions e role object action = enforcePermissions e role "user" "delete" ∧
    deletePostPermissionGate e role = enforcePermissions e role "user" "delete" ∧
    editPostPermissionGate e role = enforcePermissions e role "user" "delete" :=
  ⟨rfl, rfl, rfl⟩

/-! ## Claim C9 -/

/-- Claim C9 (against the claimed count of 16): `generateRecoveryCodes`
always returns `RecoveryCodesAmount + 1 = 17` codes — the loop
`for i := 0; i <= RecoveryCodesAmount; i++` runs 17 times — each of them a
string of length `RecoveryCodeLength = 7`. -/
theorem claim9_generateRecoveryCodes_seventeen_codes (g : Nat → Nat) :
    (generateRecoveryCodes g).length = RecoveryCodesAmount + 1 ∧
    ∀ s ∈ generateRecoveryCodes g, s.length = RecoveryCodeLength :=
  ⟨generateRecoveryCodesLoop_length g 0 (RecoveryCodesAmount + 2) (by omega),
   fun s hs => generateRecoveryCodesLoop_all_length g 0 _ s hs⟩

/-- Witness for claim C9 at the constant draw stream: the produced list has
17 elements, and its member "aaaaaaa" has length 7. -/
theorem claim9_generateRecoveryCodes_seventeen_codes_witness :
    (generateRecoveryCodes (fun _ => 0)).length = RecoveryCodesAmount + 1 ∧
    ("aaaaaaa" : String).length = RecoveryCodeLength := by
  constructor
  · exact (claim9_generateRecoveryCodes_seventeen_codes (fun _ => 0)).1
  · exact (claim9_generateRecoveryCodes_seventeen_codes (fun _ => 0)).2 "aaaaaaa" (by decide)

/-! ## Claim C8 -/

/-- Claim C8 (failing evaluation): `decryptMfaSecret` panics — it does not
return an error — on inputs shorter than the 12-byte GCM nonce size, because
`encryptedSecret[:nonceSize]` is a slice beyond the input's length: shown on
the empty blob and on an 11-byte blob.  On well-formed blobs the round trip
does hold, shown at the plaintext [1, 2, 3]. -/
theorem claim8_decryptMfaSecret_short_input_panics :
    decryptMfaSecret "k" [] = GoOutcome.panicked ∧
    decryptMfaSecret "k" (List.replicate 11 0) = GoOutcome.panicked ∧
    decryptMfaSecret "k" (encryptMfaSecret "k" [1, 2, 3]) = GoOutcome.ok [1, 2, 3] :=
  ⟨by decide, by decide, decryptMfaSecret_encryptMfaSecret "k" [1, 2, 3]⟩

/-! ## Claim C4 -/

/-- Claim C4 counterexample: a token whose header declares HS384 — not the
HS256 variant used at issuance — but which is HMAC-signed with the very same
process key, carries the `REFRESH` type and is unexpired, is ACCEPTED by
both `validateRefreshToken` and `validateAccessToken`: the key callback in
jwt.go never inspects the declared signing method, so nothing rejects a
differing algorithm. -/
theorem claim4_algorithm_not_pinned_counterexample :
    (⟨Alg.HS384, ⟨7, "REFRESH", ⟨1000, 0⟩⟩,
        hmacSign Alg.HS384 "k" ⟨7, "REFRESH", ⟨1000, 0⟩⟩⟩ : SignedToken).alg ≠ Alg.HS256 ∧
    validateRefreshToken "k" 0
        ⟨Alg.HS384, ⟨7, "REFRESH", ⟨1000, 0⟩⟩, hmacSign Alg.HS384 "k" ⟨7, "REFRESH", ⟨1000, 0⟩⟩⟩ =
      .ok ⟨7, "REFRESH", ⟨1000, 0⟩⟩ ∧
    validateAccessToken "k" 0
        ⟨Alg.HS384, ⟨7, "REFRESH", ⟨1000, 0⟩⟩, hmacSign Alg.HS384 "k" ⟨7, "REFRESH", ⟨1000, 0⟩⟩⟩ =
      .ok ⟨7, "REFRESH", ⟨1000, 0⟩⟩ :=
  ⟨by decide, by decide, by decide⟩

/-- Claim C4 as amended: the validators check only the signature (under the
token's own declared HMAC variant, with the process key) and the expiry —
they do not restrict the declared algorithm to HS256 — and
`validateRefreshToken` additionally fails for every token whose `Type` claim
is not "REFRESH", whatever its signature and expiry. -/
theorem claim4_validators_check_sig_expiry_and_type
    (key : String) (now : Int) (t : SignedToken) :
    (tokenSignatureValid key t = true → claimsValid now t.claims = true →
      validateAccessToken key now t = .ok t.claims ∧
      (t.claims.type = RefreshTokenType → validateRefreshToken key now t = .ok t.claims)) ∧
    (t.claims.type ≠ RefreshTokenType → ∀ c, validateRefreshToken key now t ≠ .ok c) := by
  constructor
  · intro hsig hcl
    constructor
    · simp [validateAccessToken, hsig, hcl]
    · intro hty
      simp [validateRefreshToken, hsig, hcl, hty]
  · intro hty c hok
    by_cases hA : ¬ tokenSignatureValid key t
    · rw [validateRefreshToken, if_pos hA] at hok
      exact Except.noConfusion hok
    · by_cases hB : ¬ claimsValid now t.claims
      · rw [validateRefreshToken, if_neg hA, if_pos hB] at hok
        exact Except.noConfusion hok
      · rw [validateRefreshToken, if_neg hA, if_neg hB, if_pos hty] at hok
        exact Except.noConfusion hok

/-- Witness for the amended claim C4: an unexpired HS512-signed token with
the correct key and a non-refresh type is accepted by `validateAccessToken`
and rejected by `validateRefreshToken`. -/
theorem claim4_validators_check_sig_expiry_and_type_witness :
    validateAccessToken "k" 0
        ⟨Alg.HS512, ⟨3, "x", ⟨5, 0⟩⟩, hmacSign Alg.HS512 "k" ⟨3, "x", ⟨5, 0⟩⟩⟩ =
      .ok ⟨3, "x", ⟨5, 0⟩⟩ ∧
    validateRefreshToken "k" 0
        ⟨Alg.HS512, ⟨3, "x", ⟨5, 0⟩⟩, hmacSign Alg.HS512 "k" ⟨3, "x", ⟨5, 0⟩⟩⟩ ≠
      .ok ⟨3, "x", ⟨5, 0⟩⟩ := by
  constructor
  · exact ((claim4_validators_check_sig_expiry_and_type "k" 0 _).1 (by decide) (by decide)).1
  · exact (claim4_validators_check_sig_expiry_and_type "k" 0 _).2 (by decide) _

theorem SetActiveState_users_active (db : Db) (userId : Int) (b : Bool) :
    ∀ u ∈ (SetActiveState db userId b).users, u.id = userId → u.active = b := by
  intro u hu hid
  rw [SetActiveState] at hu
  simp only [List.mem_map] at hu
  obtain ⟨w, hw, rfl⟩ := hu
  by_cases h : w.id = userId
  · simp [h]
  · simp only [beq_iff_eq, if_neg h] at hid
    exact absurd hid h

/-- Behaviour of the refresh handler once the presented refresh token has
passed full validation: it depends only on the subject comparison and the
blacklist lookup.  Note the fresh-token branch: a token that is NOT in the
blacklist makes `IsRefreshTokenBlacklisted` return the `ErrNotFound` error,
which the handler answers with the internal-error response. -/
theorem refreshTokenHandler_eval (key : String) (now : Int) (db : Db)
    (access : SignedToken) (req : RefreshRequest) (rc : TokenClaims)
    (hval : validateRefreshToken key now req.refreshToken = .ok rc) :
    refreshTokenHandler key now db (.bearer access) (some req) =
      (if (parseToken access).id ≠ rc.id then
        (⟨403, .errMsg "refresh token used for the wrong user"⟩, db)
      else if ((parseToken access).id, req.refreshToken) ∈ db.blacklist then
        (⟨403, .empty⟩, SetActiveState db (parseToken access).id false)
      else (internalServerErrorResponse, db)) := by
  rw [refreshTokenHandler]
  simp only [validateAuthorizationHeader, hval]
  by_cases hc : (parseToken access).id ≠ rc.id
  · rw [if_pos hc, if_pos hc]
  · rw [if_neg hc, if_neg hc]
    by_cases hm : ((parseToken access).id, req.refreshToken) ∈ db.blacklist
    · simp [IsRefreshTokenBlacklisted, if_pos hm]
    · simp [IsRefreshTokenBlacklisted, if_neg hm]

/-! ## Claim C1 -/

/-- Claim C1: when a refresh request carries a refresh token that passes
signature/expiry/type validation, whose subject matches the access token's
subject, and that is found in the blacklist for that subject, the handler
sets the user's active flag to false via `SetActiveState(userId, false)` and
answers a bare 403 Forbidden carrying no tokens. -/
theorem claim1_refresh_replay_deactivates_user (key : String) (now : Int)
    (db : Db) (access : SignedToken) (req : RefreshRequest) (rc : TokenClaims)
    (hval : validateRefreshToken key now req.refreshToken = .ok rc)
    (hsubj : (parseToken access).id = rc.id)
    (hbl : ((parseToken access).id, req.refreshToken) ∈ db.blacklist) :
    refreshTokenHandler key now db (.bearer access) (some req) =
      (⟨403, .empty⟩, SetActiveState db (parseToken access).id false) ∧
    (∀ u ∈ (SetActiveState db (parseToken access).id false).users,
      u.id = (parseToken access).id → u.active = false) ∧
    (refreshTokenHandler key now db (.bearer access) (some req)).1.tokensOf = none := by
  have hmain : refreshTokenHandler key now db (.bearer access) (some req) =
      (⟨403, .empty⟩, SetActiveState db (parseToken access).id false) := by
    rw [refreshTokenHandler_eval key now db access req rc hval,
      if_neg (not_not_intro hsubj), if_pos hbl]
  refine ⟨hmain, SetActiveState_users_active db _ false, ?_⟩
  rw [hmain]
  rfl

/-- Witness for claim C1: replaying the blacklisted `wRefresh` flips alice's
active flag and answers a bare 403 with no tokens. -/
theorem claim1_refresh_replay_deactivates_user_witness :
    refreshTokenHandler wKey 0 wDbBlacklisted (.bearer wAccess) (some ⟨wRefresh⟩) =
      (⟨403, .empty⟩, SetActiveState wDbBlacklisted 1 false) ∧
    (∀ u ∈ (SetActiveState wDbBlacklisted 1 false).users, u.id = 1 → u.active = false) ∧
    (refreshTokenHandler wKey 0 wDbBlacklisted (.bearer wAccess) (some ⟨wRefresh⟩)).1.tokensOf =
      none := by
  have h := claim1_refresh_replay_deactivates_user wKey 0 wDbBlacklisted wAccess
    ⟨wRefresh⟩ wRefreshClaims (by decide) (by decide) (by decide)
  exact h

/-! ## Claim C3 -/

/-- Claim C3: when the subject id parsed from the access token differs from
the subject of the otherwise valid refresh token, the handler answers 403
Forbidden and performs no state change: the store is returned untouched (no
blacklist insert, no active-flag change) and no tokens are carried. -/
theorem claim3_refresh_subject_mismatch_forbidden (key : String) (now : Int)
    (db : Db) (access : SignedToken) (req : RefreshRequest) (rc : TokenClaims)
    (hval : validateRefreshToken key now req.refreshToken = .ok rc)
    (hsubj : (parseToken access).id ≠ rc.id) :
    refreshTokenHandler key now db (.bearer access) (some req) =
      (⟨403, .errMsg "refresh token used for the wrong user"⟩, db) ∧
    (refreshTokenHandler key now db (.bearer access) (some req)).1.tokensOf = none := by
  have hmain : refreshTokenHandler key now db (.bearer access) (some req) =
      (⟨403, .errMsg "refresh token used for the wrong user"⟩, db) := by
    rw [refreshTokenHandler_eval key now db access req rc hval, if_pos hsubj]
  refine ⟨hmain, ?_⟩
  rw [hmain]
  rfl

/-- Witness for claim C3: presenting alice's valid refresh token together
with an access token for user 2 yields 403 and leaves the store unchanged. -/
theorem claim3_refresh_subject_mismatch_forbidden_witness :
    refreshTokenHandler wKey 0 wDb (.bearer wAccessOther) (some ⟨wRefresh⟩) =
      (⟨403, .errMsg "refresh token used for the wrong user"⟩, wDb) ∧
    (refreshTokenHandler wKey 0 wDb (.bearer wAccessOther) (some ⟨wRefresh⟩)).1.tokensOf =
      none := by
  have h := claim3_refresh_subject_mismatch_forbidden wKey 0 wDb wAccessOther
    ⟨wRefresh⟩ wRefreshClaims (by decide) (by decide)
  exact h

/-! ## Claim C2 -/

/-- Claim C2 (failing behaviour): for a refresh request whose refresh token
is fully valid, whose subjects match, and whose token is NOT in the
blacklist — the redemption case the claim describes — the handler answers
the internal-error response and leaves the store untouched: no token pair is
returned and nothing is inserted into the blacklist.  The blacklist lookup
maps the no-rows result through `handleError` to `ErrNotFound`, and the
handler treats every lookup error as internal, so the rotation the claim
describes never executes. -/
theorem claim2_refresh_fresh_token_internal_error (key : String) (now : Int)
    (db : Db) (access : SignedToken) (req : RefreshRequest) (rc : TokenClaims)
    (hval : validateRefreshToken key now req.refreshToken = .ok rc)
    (hsubj : (parseToken access).id = rc.id)
    (hbl : ((parseToken access).id, req.refreshToken) ∉ db.blacklist) :
    refreshTokenHandler key now db (.bearer access) (some req) =
      (internalServerErrorResponse, db) := by
  rw [refreshTokenHandler_eval key now db access req rc hval,
    if_neg (not_not_intro hsubj), if_neg hbl]

/-- Witness for claim C2: alice's freshly issued, never-used refresh token is
answered with 500 and no state change. -/
theorem claim2_refresh_fresh_token_internal_error_witness :
    refreshTokenHandler wKey 0 wDb (.bearer wAccess) (some ⟨wRefresh⟩) =
      (internalServerErrorResponse, wDb) := by
  exact claim2_refresh_fresh_token_internal_error wKey 0 wDb wAccess ⟨wRefresh⟩
    wRefreshClaims (by decide) (by decide) (by decide)

/-! ## Claim C5 -/

theorem FindUserByUsername_ok (db : Db) (n : String) (user : User)
    (h : FindUserByUsername db n = .ok user) :
    db.users.find? (fun u => u.username == n) = some user := by
  rw [FindUserByUsername] at h
  rcases hf : db.users.find? (fun u => u.username == n) with _ | u
  · rw [hf] at h
    exact Except.noConfusion h
  · rw [hf] at h
    simp only [Except.ok.injEq] at h
    rw [hf, h]

theorem find?_username_map (l : List User) (f : User → User) (n : String)
    (hf : ∀ u, (f u).username = u.username) :
    (l.map f).find? (fun u => u.username == n) =
      (l.find? (fun u => u.username == n)).map f := by
  have hp : ((fun u => u.username == n) ∘ f) = (fun u => u.username == n) := by
    funext u
    simp [Function.comp, hf]
  rw [List.find?_map, hp]

theorem updateRecovery_username (userId : Int) (codes : List String) (u : User) :
    (if u.id == userId then { u with recovery := codes } else u).username = u.username := by
  split <;> rfl

theorem find?_SetRecoveryCodes (db : Db) (user : User) (codes : List String) (n : String)
    (hfind : db.users.find? (fun u => u.username == n) = some user) :
    (SetRecoveryCodes db user.id codes).users.find? (fun u => u.username == n) =
      some { user with recovery := codes } := by
  have hu : (SetRecoveryCodes db user.id codes).users =
      db.users.map (fun u => if u.id == user.id then { u with recovery := codes } else u) := rfl
  rw [hu, find?_username_map _ _ _ (updateRecovery_username user.id codes), hfind]
  simp

theorem removeRecoveryCode_not_mem (l : List String) (x : String) (h : l.Nodup) :
    x ∉ removeRecoveryCode l x := by
  induction l with
  | nil => simp [removeRecoveryCode]
  | cons v rest ih =>
    rw [removeRecoveryCode]
    by_cases hv : v = x
    · rw [if_pos (by simp [hv])]
      subst hv
      exact (List.nodup_cons.mp h).1
    · rw [if_neg (by simp [hv])]
      intro hmem
      rcases List.mem_cons.mp hmem with h1 | h1
      · exact hv h1.symm
      · exact ih (List.nodup_cons.mp h).2 h1

theorem isRecoveryCodeValid_iff (x : String) (l : List String) :
    isRecoveryCodeValid x l = true ↔ x ∈ l := by
  rw [isRecoveryCodeValid, List.any_eq_true]
  constructor
  · rintro ⟨c, hc, he⟩
    rw [show x = c from by simpa using he]
    exact hc
  · intro hx
    exact ⟨x, hx, by simp⟩

/-- Behaviour of the recovery-login handler once the user lookup and the
password check have succeeded: an empty stored set and a non-member code are
answered identically, and a member code removes its first occurrence,
persists the reduced set and issues a fresh pair. -/
theorem loginUserRecoveryHandler_eval (key : String) (now : Int) (db : Db)
    (req : RecoveryLoginRequest) (user : User)
    (hlen : (trimSpace req.username).length ≤ 50)
    (hfind : FindUserByUsername db (trimSpace req.username) = .ok user)
    (hpw : comparePasswordAndHash req.password user.password = true) :
    loginUserRecoveryHandler key now db req =
      (if user.recovery.length = 0 then (badRequestResponse "incorrect recovery code", db)
      else if req.recoveryCode ∉ user.recovery then
        (badRequestResponse "incorrect recovery code", db)
      else
        (okTokens (generateAccessToken key now user.id) (generateRefreshToken key now user.id),
          SetRecoveryCodes db user.id (removeRecoveryCode user.recovery req.recoveryCode))) := by
  have hfind' := FindUserByUsername_ok db _ user hfind
  have husr : user.username = (trimSpace req.username) := by
    simpa using List.find?_some hfind'
  have hget : GetUserRecoveryCodes db user.username = .ok user.recovery := by
    rw [GetUserRecoveryCodes, husr, hfind']
  have herrs : requiredMaxErrors "username" (trimSpace req.username) 50 = [] := by
    rw [requiredMaxErrors, if_neg (by omega)]
  simp only [loginUserRecoveryHandler]
  rw [herrs]
  rw [if_neg (by simp)]
  simp only [hfind]
  rw [if_neg (not_not_intro hpw)]
  simp only [hget]
  by_cases hl : user.recovery.length = 0
  · rw [if_pos (by simpa using hl), if_pos hl]
  · rw [if_neg (by simpa using hl), if_neg hl]
    by_cases hv : req.recoveryCode ∈ user.recovery
    · rw [if_neg (not_not_intro ((isRecoveryCodeValid_iff _ _).mpr hv)),
        if_neg (not_not_intro hv)]
    · rw [if_pos (fun htrue => hv ((isRecoveryCodeValid_iff _ _).mp htrue)), if_pos hv]

/-- Claim C5: a recovery code is consumed exactly once.  With the stored set
free of duplicates (it is generated as a set of fresh random codes), a
successful recovery login with code X issues a token pair and persists the
stored set with X removed; the same request replayed against the updated
store fails with exactly the "incorrect recovery code" answer; a never-valid
code gets that same answer; and a user whose stored set is empty gets that
same answer as well, indistinguishable from a wrong code. -/
theorem claim5_recovery_code_consumed_once (key : String) (now : Int) (db : Db)
    (req : RecoveryLoginRequest) (user : User)
    (hlen : (trimSpace req.username).length ≤ 50)
    (hfind : FindUserByUsername db (trimSpace req.username) = .ok user)
    (hpw : comparePasswordAndHash req.password user.password = true)
    (hnd : user.recovery.Nodup)
    (hmem : req.recoveryCode ∈ user.recovery) :
    loginUserRecoveryHandler key now db req =
      (okTokens (generateAccessToken key now user.id) (generateRefreshToken key now user.id),
        SetRecoveryCodes db user.id (removeRecoveryCode user.recovery req.recoveryCode)) ∧
    req.recoveryCode ∉ removeRecoveryCode user.recovery req.recoveryCode ∧
    GetUserRecoveryCodes
        (SetRecoveryCodes db user.id (removeRecoveryCode user.recovery req.recoveryCode))
        (trimSpace req.username) =
      .ok (removeRecoveryCode user.recovery req.recoveryCode) ∧
    loginUserRecoveryHandler key now
        (SetRecoveryCodes db user.id (removeRecoveryCode user.recovery req.recoveryCode)) req =
      (badRequestResponse "incorrect recovery code",
        SetRecoveryCodes db user.id (removeRecoveryCode user.recovery req.recoveryCode)) ∧
    (∀ bad, bad ∉ user.recovery →
      loginUserRecoveryHandler key now db ⟨req.username, req.password, bad⟩ =
        (badRequestResponse "incorrect recovery code", db)) ∧
    (∀ (db2 : Db) (user2 : User), FindUserByUsername db2 (trimSpace req.username) = .ok user2 →
      comparePasswordAndHash req.password user2.password = true →
      user2.recovery = [] →
      loginUserRecoveryHandler key now db2 req =
        (badRequestResponse "incorrect recovery code", db2)) := by
  have hfind' := FindUserByUsername_ok db _ user hfind
  have hne : user.recovery.length ≠ 0 :=
    fun h0 => by simp [List.length_eq_zero.mp h0] at hmem
  have hnot := removeRecoveryCode_not_mem user.recovery req.recoveryCode hnd
  have hfind1 := find?_SetRecoveryCodes db user
    (removeRecoveryCode user.recovery req.recoveryCode) (trimSpace req.username) hfind'
  have hfindUp : FindUserByUsername
      (SetRecoveryCodes db user.id (removeRecoveryCode user.recovery req.recoveryCode))
      (trimSpace req.username) =
      .ok { user with recovery := removeRecoveryCode user.recovery req.recoveryCode } := by
    rw [FindUserByUsername, hfind1]
  refine ⟨?_, hnot, ?_, ?_, ?_, ?_⟩
  · rw [loginUserRecoveryHandler_eval key now db req user hlen hfind hpw,
      if_neg hne, if_neg (not_not_intro hmem)]
  · have husr1 : ({ user with recovery := removeRecoveryCode user.recovery req.recoveryCode }
        : User).username = (trimSpace req.username) := by
      simpa using List.find?_some hfind1
    rw [GetUserRecoveryCodes, hfind1]
  · rw [loginUserRecoveryHandler_eval key now _ req
      { user with recovery := removeRecoveryCode user.recovery req.recoveryCode }
      hlen hfindUp hpw]
    by_cases h0 : (removeRecoveryCode user.recovery req.recoveryCode).length = 0
    · rw [if_pos h0]
    · rw [if_neg h0, if_pos hnot]
  · intro bad hbad
    rw [loginUserRecoveryHandler_eval key now db ⟨req.username, req.password, bad⟩ user
      hlen hfind hpw, if_neg hne, if_pos hbad]
  · intro db2 user2 hfind2 hpw2 hempty
    rw [loginUserRecoveryHandler_eval key now db2 req user2 hlen hfind2 hpw2,
      if_pos (by rw [hempty]; rfl)]

/-- Witness for claim C5 on a concrete store: alice holds codes
["abc", "xyz"]; logging in with "abc" succeeds and leaves ["xyz"]; the replay
and a never-valid code "zzz" both answer "incorrect recovery code"; so does a
store in which alice's set is empty. -/
theorem claim5_recovery_code_consumed_once_witness :
    loginUserRecoveryHandler wKey 0 wDb ⟨"alice", "password123", "abc"⟩ =
      (okTokens (generateAccessToken wKey 0 1) (generateRefreshToken wKey 0 1),
        SetRecoveryCodes wDb 1 (removeRecoveryCode wUser.recovery "abc")) ∧
    "abc" ∉ removeRecoveryCode wUser.recovery "abc" ∧
    GetUserRecoveryCodes (SetRecoveryCodes wDb 1 (removeRecoveryCode wUser.recovery "abc"))
        "alice" = .ok (removeRecoveryCode wUser.recovery "abc") ∧
    loginUserRecoveryHandler wKey 0
        (SetRecoveryCodes wDb 1 (removeRecoveryCode wUser.recovery "abc"))
        ⟨"alice", "password123", "abc"⟩ =
      (badRequestResponse "incorrect recovery code",
        SetRecoveryCodes wDb 1 (removeRecoveryCode wUser.recovery "abc")) ∧
    loginUserRecoveryHandler wKey 0 wDb ⟨"alice", "password123", "zzz"⟩ =
      (badRequestResponse "incorrect recovery code", wDb) ∧
    loginUserRecoveryHandler wKey 0 ⟨[{ wUser with recovery := [] }], [], [], 2⟩
        ⟨"alice", "password123", "abc"⟩ =
      (badRequestResponse "incorrect recovery code",
        ⟨[{ wUser with recovery := [] }], [], [], 2⟩) := by
  have h := claim5_recovery_code_consumed_once wKey 0 wDb ⟨"alice", "password123", "abc"⟩
    wUser (by decide) (by decide) (by decide) (by decide) (by decide)
  exact ⟨h.1, h.2.1, h.2.2.1, h.2.2.2.1, h.2.2.2.2.1 "zzz" (by decide),
    h.2.2.2.2.2 ⟨[{ wUser with recovery := [] }], [], [], 2⟩ { wUser with recovery := [] }
      (by decide) (by decide) (by decide)⟩

/-! ## Claim C6 -/

/-- Claim C6: registering with a username or email that already exists is
answered 409 Conflict with the "already exists" body — via the
`ErrUserAlreadyExists` branch of the error-handler middleware — and this
outcome is distinguished from any other storage error, which is answered
with the generic internal error; a first registration with fresh username
and email is answered 200 with an access+refresh token pair. -/
theorem claim6_register_conflict_distinguished (key : String) (now : Int)
    (db : Db) (req : RegisterRequest) (fault : Bool)
    (hmin : 3 ≤ (trimSpace req.username).length)
    (hmax : (trimSpace req.username).length ≤ 50)
    (hpw : 8 ≤ req.password.length)
    (hmail : mailParseAddressOk (trimSpace req.email) = true) :
    (db.users.any
        (fun w => w.username == trimSpace req.username || w.email == trimSpace req.email) = true →
      registerUserHandler key now db req fault =
        (⟨409, .errMsg "a user with this username or email already exists"⟩, db)) ∧
    (db.users.any
        (fun w => w.username == trimSpace req.username || w.email == trimSpace req.email) = false →
      fault = true →
      registerUserHandler key now db req fault = (internalServerErrorResponse, db)) ∧
    (db.users.any
        (fun w => w.username == trimSpace req.username || w.email == trimSpace req.email) = false →
      fault = false →
      registerUserHandler key now db req fault =
        (okTokens (generateAccessToken key now db.nextId) (generateRefreshToken key now db.nextId),
          { db with
              users := db.users ++ [⟨db.nextId, trimSpace req.username, trimSpace req.email,
                argonCreateHash req.password, [], "", [], true⟩],
              nextId := db.nextId + 1 })) := by
  have herrs : requiredRangeErrors "username" (trimSpace req.username) 3 50 ++
      requiredMinErrors "password" req.password 8 = [] := by
    simp only [requiredRangeErrors, requiredMaxErrors, requiredMinErrors]
    rw [if_neg (by omega), if_neg (by omega), if_neg (by omega)]
    rfl
  refine ⟨?_, ?_, ?_⟩
  · intro hconf
    simp only [registerUserHandler]
    rw [herrs]
    rw [if_neg (by simp)]
    rw [if_neg (not_not_intro hmail)]
    simp only [InsertUser, if_pos hconf]
    rfl
  · intro hconf hf
    simp only [registerUserHandler]
    rw [herrs]
    rw [if_neg (by simp)]
    rw [if_neg (not_not_intro hmail)]
    simp only [InsertUser]
    rw [if_neg (by simp [hconf]), if_pos hf]
    rfl
  · intro hconf hf
    simp only [registerUserHandler]
    rw [herrs]
    rw [if_neg (by simp)]
    rw [if_neg (not_not_intro hmail)]
    simp only [InsertUser]
    rw [if_neg (by simp [hconf]), if_neg (by simp [hf])]

/-- Witness for claim C6, the spec scenario: registering
alice/alice@example.com/password123 into an empty store answers 200 with a
token pair; repeating the registration answers 409 Conflict; a faulted
insert answers the generic internal error. -/
theorem claim6_register_conflict_distinguished_witness :
    registerUserHandler wKey 0 ⟨[], [], [], 1⟩
        ⟨"alice", "alice@example.com", "password123"⟩ false =
      (okTokens (generateAccessToken wKey 0 1) (generateRefreshToken wKey 0 1),
        ⟨[⟨1, "alice", "alice@example.com", argonCreateHash "password123", [], "", [], true⟩],
          [], [], 2⟩) ∧
    registerUserHandler wKey 0
        ⟨[⟨1, "alice", "alice@example.com", argonCreateHash "password123", [], "", [], true⟩],
          [], [], 2⟩
        ⟨"alice", "alice@example.com", "password123"⟩ false =
      (⟨409, .errMsg "a user with this username or email already exists"⟩,
        ⟨[⟨1, "alice", "alice@example.com", argonCreateHash "password123", [], "", [], true⟩],
          [], [], 2⟩) ∧
    registerUserHandler wKey 0 ⟨[], [], [], 1⟩
        ⟨"alice", "alice@example.com", "password123"⟩ true =
      (internalServerErrorResponse, ⟨[], [], [], 1⟩) := by
  refine ⟨?_, ?_, ?_⟩
  · exact (claim6_register_conflict_distinguished wKey 0 ⟨[], [], [], 1⟩
      ⟨"alice", "alice@example.com", "password123"⟩ false
      (by decide) (by decide) (by decide) (by decide)).2.2 (by decide) rfl
  · exact (claim6_register_conflict_distinguished wKey 0
      ⟨[⟨1, "alice", "alice@example.com", argonCreateHash "password123", [], "", [], true⟩],
        [], [], 2⟩
      ⟨"alice", "alice@example.com", "password123"⟩ false
      (by decide) (by decide) (by decide) (by decide)).1 (by decide)
  · exact (claim6_register_conflict_distinguished wKey 0 ⟨[], [], [], 1⟩
      ⟨"alice", "alice@example.com", "password123"⟩ true
      (by decide) (by decide) (by decide) (by decide)).2.1 (by decide) rfl

/-! ## Claim C7 -/

theorem SetPassword_users_password (db : Db) (userId : Int) (hash : String) :
    ∀ u ∈ (SetPassword db userId hash).users, u.id = userId → u.password = hash := by
  intro u hu hid
  rw [SetPassword] at hu
  simp only [List.mem_map] at hu
  obtain ⟨w, hw, rfl⟩ := hu
  by_cases h : w.id = userId
  · simp [h]
  · simp only [beq_iff_eq, if_neg h] at hid
    exact absurd hid h

/-- Claim C7: an expired reset token is answered 403 and deleted; a valid
one persists the new password hash to the owning user and then deletes every
outstanding reset token of that user — tokens of other users survive. -/
theorem claim7_reset_password_single_use (now : Int) (tokLen : Nat) (db : Db)
    (token password : String) (prt : PasswordResetToken)
    (hlen : token.length = tokLen) (hpw : 8 ≤ password.length)
    (hget : GetPasswordResetToken db token = .ok prt) :
    (prt.expiry < now →
      resetUserPasswordHandler now tokLen db token password =
        (⟨403, .errMsg "this token has expired"⟩, DeletePasswordResetToken db token) ∧
      (∀ r ∈ (DeletePasswordResetToken db token).resetTokens, r.token ≠ token) ∧
      (DeletePasswordResetToken db token).users = db.users) ∧
    (¬ prt.expiry < now →
      (resetUserPasswordHandler now tokLen db token password).1 =
        successResponse "password has been changed successfully" ∧
      (∀ r ∈ (resetUserPasswordHandler now tokLen db token password).2.resetTokens,
        r.userId ≠ prt.userId) ∧
      (∀ r ∈ db.resetTokens, r.userId ≠ prt.userId →
        r ∈ (resetUserPasswordHandler now tokLen db token password).2.resetTokens) ∧
      (∀ u ∈ (resetUserPasswordHandler now tokLen db token password).2.users,
        u.id = prt.userId → u.password = argonCreateHash password)) := by
  have herrs : requiredExactErrors "token" token tokLen ++
      requiredMinErrors "password" password 8 = [] := by
    simp only [requiredExactErrors, requiredMinErrors]
    rw [if_neg (by omega), if_neg (by omega)]
    rfl
  constructor
  · intro hexp
    have hmain : resetUserPasswordHandler now tokLen db token password =
        (⟨403, .errMsg "this token has expired"⟩, DeletePasswordResetToken db token) := by
      simp only [resetUserPasswordHandler]
      rw [herrs]
      rw [if_neg (by simp)]
      simp only [hget]
      rw [if_pos hexp]
    refine ⟨hmain, ?_, rfl⟩
    intro r hr
    rw [DeletePasswordResetToken] at hr
    simp only [List.mem_filter, Bool.not_eq_eq_eq_not, Bool.not_true, beq_eq_false_iff_ne,
      ne_eq] at hr
    exact hr.2
  · intro hexp
    have hmain : resetUserPasswordHandler now tokLen db token password =
        (successResponse "password has been changed successfully",
          DeleteAllPasswordResetTokensForUser
            (SetPassword db prt.userId (argonCreateHash password)) prt.userId) := by
      simp only [resetUserPasswordHandler]
      rw [herrs]
      rw [if_neg (by simp)]
      simp only [hget]
      rw [if_neg hexp]
    rw [hmain]
    refine ⟨rfl, ?_, ?_, ?_⟩
    · intro r hr
      rw [DeleteAllPasswordResetTokensForUser] at hr
      simp only [List.mem_filter, Bool.not_eq_eq_eq_not, Bool.not_true, beq_eq_false_iff_ne,
        ne_eq] at hr
      exact hr.2
    · intro r hr hne
      rw [DeleteAllPasswordResetTokensForUser]
      simp only [List.mem_filter, Bool.not_eq_eq_eq_not, Bool.not_true, beq_eq_false_iff_ne,
        ne_eq]
      exact ⟨hr, hne⟩
    · exact SetPassword_users_password db prt.userId (argonCreateHash password)

/-- Witness for claim C7: against a store holding tokens tok1tok1 and
tok2tok2 for alice and tok3tok3 for user 2, presenting tok1tok1 (expiry 100)
at time 200 answers 403 and deletes it; presenting it at time 50 answers
success, keeps user 2's token, and alice's stored record carries the new
hash. -/
theorem claim7_reset_password_single_use_witness :
    resetUserPasswordHandler 200 8 wDbReset "tok1tok1" "newpassword" =
      (⟨403, .errMsg "this token has expired"⟩, DeletePasswordResetToken wDbReset "tok1tok1") ∧
    (resetUserPasswordHandler 50 8 wDbReset "tok1tok1" "newpassword").1 =
      successResponse "password has been changed successfully" ∧
    (⟨2, "tok3tok3", 500⟩ : PasswordResetToken) ∈
      (resetUserPasswordHandler 50 8 wDbReset "tok1tok1" "newpassword").2.resetTokens ∧
    ({ wUser with password := argonCreateHash "newpassword" } : User).password =
      argonCreateHash "newpassword" := by
  have h200 := claim7_reset_password_single_use 200 8 wDbReset "tok1tok1" "newpassword"
    ⟨1, "tok1tok1", 100⟩ (by decide) (by decide) (by decide)
  have h50 := claim7_reset_password_single_use 50 8 wDbReset "tok1tok1" "newpassword"
    ⟨1, "tok1tok1", 100⟩ (by decide) (by decide) (by decide)
  refine ⟨(h200.1 (by decide)).1, (h50.2 (by decide)).1, ?_, ?_⟩
  · exact (h50.2 (by decide)).2.2.1 ⟨2, "tok3tok3", 500⟩ (by decide) (by decide)
  · exact (h50.2 (by decide)).2.2.2 { wUser with password := argonCreateHash "newpassword" }
      (by decide) (by decide)

end BlogApi
